import Mathlib

/-!
Verification of the secret-manager server (`src/server/routes.ts`,
`src/server/pg-storage.ts`, `src/server/storage.ts`, shared schema).

The relational store is modelled as lists of rows (one list per table,
insertion order preserved, serial-id counters carried explicitly), the
AWS SSM Parameter Store as an association list of parameters, and each
Express route handler as a pure function from the request, the current
stores and an availability oracle for the external SSM service to an
outcome (HTTP status, optional payload, new stores).
-/

set_option autoImplicit false

namespace SecretManager

/-- A row of the `users` table (shared schema). -/
structure User where
  id : Nat
  username : String
  password : String
  email : String
  fullName : String
  role : String
deriving DecidableEq

/-- A row of the `projects` table. -/
structure Project where
  id : Nat
  name : String
  description : Option String
deriving DecidableEq

/-- A row of the `user_projects` table (project-level role assignment). -/
structure UserProject where
  id : Nat
  userId : Nat
  projectId : Nat
  role : String
deriving DecidableEq

/-- A row of the `secrets` table. -/
structure Secret where
  id : Nat
  name : String
  value : String
  description : Option String
  projectId : Nat
  ssmPath : String
  isEncrypted : Bool
deriving DecidableEq

/-- A row of the `activity_logs` table. -/
structure ActivityLog where
  id : Nat
  userId : Nat
  action : String
  resourceType : String
  resourceId : Nat
  details : Option String
  timestamp : Nat
deriving DecidableEq

/-- The relational store: one list per table plus the serial counters. -/
structure DB where
  users : List User
  projects : List Project
  secrets : List Secret
  userProjects : List UserProject
  activityLogs : List ActivityLog
  nextUserId : Nat
  nextProjectId : Nat
  nextSecretId : Nat
  nextUserProjectId : Nat
  nextActivityLogId : Nat
deriving DecidableEq

/-- One parameter held by the AWS SSM Parameter Store. -/
structure SSMParam where
  path : String
  value : String
  secure : Bool
deriving DecidableEq

/-- The SSM Parameter Store contents. -/
def SSMStore := List SSMParam

instance : DecidableEq SSMStore := by
  unfold SSMStore
  infer_instance

/-- `PutParameterCommand` with `Overwrite: true`: replace any parameter at
`path` with the new value. -/
def setParam (ssm : SSMStore) (path value : String) (secure : Bool) : SSMStore :=
  ⟨path, value, secure⟩ :: List.filter (fun p => !(p.path == path)) ssm

/-- Look a parameter up by path. -/
def lookupParam (ssm : SSMStore) (path : String) : Option SSMParam :=
  List.find? (fun p => p.path == path) ssm

/-- Remove the parameter at `path`. -/
def removeParam (ssm : SSMStore) (path : String) : SSMStore :=
  List.filter (fun p => !(p.path == path)) ssm

/-- Sending `PutParameterCommand`: fails exactly when the external service
call fails (`avail = false`); on success the parameter is overwritten. -/
def ssmPut (avail : Bool) (ssm : SSMStore) (path value : String) (secure : Bool) :
    Except String SSMStore :=
  if avail then .ok (setParam ssm path value secure) else .error "ssm unavailable"

/-- Sending `DeleteParameterCommand`: fails when the service call fails or
the parameter does not exist (AWS throws `ParameterNotFound`). -/
def ssmDelete (avail : Bool) (ssm : SSMStore) (path : String) : Except String SSMStore :=
  if avail then
    match lookupParam ssm path with
    | none => .error "ParameterNotFound"
    | some _ => .ok (removeParam ssm path)
  else .error "ssm unavailable"

/-- `PgStorage.getUser`: `select … where eq(users.id, id)`, first result. -/
def getUser (db : DB) (id : Nat) : Option User :=
  db.users.find? (fun u => u.id == id)

/-- `PgStorage.getProject`. -/
def getProject (db : DB) (id : Nat) : Option Project :=
  db.projects.find? (fun p => p.id == id)

/-- `PgStorage.getSecret`. -/
def getSecret (db : DB) (id : Nat) : Option Secret :=
  db.secrets.find? (fun s => s.id == id)

/-- `PgStorage.getUserProject`: the row for the (userId, projectId) pair. -/
def getUserProject (db : DB) (userId projectId : Nat) : Option UserProject :=
  db.userProjects.find? (fun up => up.userId == userId && up.projectId == projectId)

/-- The project-level role check used by the secret create and update
routes: global admins pass; otherwise the actor's `UserProject` row must
exist and carry role `admin` or `editor`. -/
def canEditSecrets (db : DB) (u : User) (projectId : Nat) : Bool :=
  if u.role == "admin" then true
  else
    match getUserProject db u.id projectId with
    | none => false
    | some up => up.role == "admin" || up.role == "editor"

/-- The check used by the secret delete route and by user assignment:
global admins pass; otherwise the row must exist with role `admin`. -/
def canAdminProject (db : DB) (u : User) (projectId : Nat) : Bool :=
  if u.role == "admin" then true
  else
    match getUserProject db u.id projectId with
    | none => false
    | some up => up.role == "admin"

/-- The check used by the view routes (project detail, project secrets,
project users, project activity logs): global admins pass; otherwise any
`UserProject` row for the pair suffices. -/
def hasProjectAccess (db : DB) (u : User) (projectId : Nat) : Bool :=
  if u.role == "admin" then true
  else
    match getUserProject db u.id projectId with
    | none => false
    | some _ => true

/-- The project-scoped actions guarded by the route handlers. -/
inductive Action where
  | viewProject
  | viewProjectSecrets
  | viewProjectUsers
  | viewProjectLogs
  | createSecret
  | updateSecret
  | deleteSecret
  | assignUser
deriving DecidableEq

/-- The authorization decision of the route handlers, by action. -/
def authorize (db : DB) (u : User) (a : Action) (projectId : Nat) : Bool :=
  match a with
  | .viewProject | .viewProjectSecrets | .viewProjectUsers | .viewProjectLogs =>
      hasProjectAccess db u projectId
  | .createSecret | .updateSecret => canEditSecrets db u projectId
  | .deleteSecret | .assignUser => canAdminProject db u projectId

/-- `PgStorage.createSecret`: insert with the next serial id. -/
def createSecretRow (db : DB) (name value : String) (description : Option String)
    (projectId : Nat) (ssmPath : String) (isEncrypted : Bool) : Secret × DB :=
  let row : Secret := ⟨db.nextSecretId, name, value, description, projectId, ssmPath, isEncrypted⟩
  (row, { db with secrets := db.secrets ++ [row], nextSecretId := db.nextSecretId + 1 })

/-- `PgStorage.logActivity`: insert with the next serial id and the current
time as timestamp. -/
def logActivityRow (db : DB) (userId : Nat) (action resourceType : String)
    (resourceId : Nat) (details : Option String) (now : Nat) : DB :=
  { db with
    activityLogs := db.activityLogs ++
      [⟨db.nextActivityLogId, userId, action, resourceType, resourceId, details, now⟩],
    nextActivityLogId := db.nextActivityLogId + 1 }

/-- The project-name slug used when the create route builds the SSM path:
`project.name.toLowerCase().replace(/ /g, "-")` — every character is
lower-cased and every space character becomes a hyphen (the regex pattern
is the single space character, so a character-wise map is exact). -/
def formatProjectName (name : String) : String :=
  ⟨(name.data.map Char.toLower).map fun c => if c = ' ' then '-' else c⟩

/-- The SSM path built by the create route:
`/secrets-manager/<formatted project name>/<secret name>`. -/
def ssmPathFor (projectName secretName : String) : String :=
  "/secrets-manager/" ++ formatProjectName projectName ++ "/" ++ secretName

/-- The validated body of `POST /api/secrets` (`insertSecretSchema`):
`name`, `value`, `projectId` and `ssmPath` are required, `description`
is nullable and `isEncrypted` optional (schema default `false`). -/
structure CreateSecretBody where
  name : String
  value : String
  description : Option String
  projectId : Nat
  ssmPath : String
  isEncrypted : Option Bool
deriving DecidableEq

/-- The body of `PUT /api/secrets/:id`: a partial `InsertSecret`, every
field optional. -/
structure UpdateSecretBody where
  name : Option String
  value : Option String
  description : Option String
  projectId : Option Nat
  ssmPath : Option String
  isEncrypted : Option Bool
deriving DecidableEq

/-- Drizzle `update(secrets).set(body)`: fields present in the body
overwrite the row, absent fields are left unchanged. -/
def mergeSecret (s : Secret) (b : UpdateSecretBody) : Secret :=
  { id := s.id
    name := b.name.getD s.name
    value := b.value.getD s.value
    description := match b.description with
      | some d => some d
      | none => s.description
    projectId := b.projectId.getD s.projectId
    ssmPath := b.ssmPath.getD s.ssmPath
    isEncrypted := b.isEncrypted.getD s.isEncrypted }

/-- `PgStorage.updateSecret`: rewrite the row whose id matches. -/
def updateSecretRow (db : DB) (sid : Nat) (b : UpdateSecretBody) : DB :=
  { db with secrets := db.secrets.map fun s => if s.id == sid then mergeSecret s b else s }

/-- `PgStorage.deleteSecret`: remove the row whose id matches. -/
def deleteSecretRow (db : DB) (sid : Nat) : DB :=
  { db with secrets := db.secrets.filter fun s => !(s.id == sid) }

/-- Outcome of a secret route: HTTP status, response payload (the secret,
when one is returned), and the two stores after the request. -/
structure SecretOutcome where
  status : Nat
  secret : Option Secret
  db : DB
  ssm : SSMStore
deriving DecidableEq

/-- Outcome of the delete route. -/
structure DeleteOutcome where
  status : Nat
  db : DB
  ssm : SSMStore
deriving DecidableEq

/-- `POST /api/secrets`: permission check against the body's `projectId`,
project lookup, SSM path construction, `PutParameterCommand` (abort with
500 when it fails), then the relational insert and the activity log. -/
def handleCreateSecret (u : User) (b : CreateSecretBody) (db : DB) (ssm : SSMStore)
    (avail : Bool) (now : Nat) : SecretOutcome :=
  if !canEditSecrets db u b.projectId then ⟨403, none, db, ssm⟩
  else
    match getProject db b.projectId with
    | none => ⟨404, none, db, ssm⟩
    | some project =>
      let path := ssmPathFor project.name b.name
      match ssmPut avail ssm path b.value (b.isEncrypted.getD false) with
      | .error _ => ⟨500, none, db, ssm⟩
      | .ok ssm' =>
        let (secret, db') := createSecretRow db b.name b.value b.description
          b.projectId path (b.isEncrypted.getD false)
        let db'' := logActivityRow db' u.id "created" "secret" secret.id
          (some ("Created secret: " ++ secret.name ++ " in project: " ++ project.name)) now
        ⟨201, some secret, db'', ssm'⟩

/-- The guard `req.body.value && req.body.value !== secret.value` of the
update route: the supplied value is truthy (non-empty) and differs from
the stored value. -/
def valueChangedCheck (b : UpdateSecretBody) (s : Secret) : Bool :=
  match b.value with
  | some v => !(v == "") && !(v == s.value)
  | none => false

/-- `PUT /api/secrets/:id`: look the secret up, check permission against
its current `projectId`, write through to SSM at the existing `ssmPath`
only when `valueChangedCheck` holds (abort with 500 when that write
fails), then merge the body into the relational row and log. -/
def handleUpdateSecret (u : User) (sid : Nat) (b : UpdateSecretBody) (db : DB)
    (ssm : SSMStore) (avail : Bool) (now : Nat) : SecretOutcome :=
  match getSecret db sid with
  | none => ⟨404, none, db, ssm⟩
  | some secret =>
    if !canEditSecrets db u secret.projectId then ⟨403, none, db, ssm⟩
    else
      match (if valueChangedCheck b secret then
               ssmPut avail ssm secret.ssmPath (b.value.getD "") (b.isEncrypted.getD false)
             else .ok ssm) with
      | .error _ => ⟨500, none, db, ssm⟩
      | .ok ssm' =>
        let db' := updateSecretRow db sid b
        let updated := getSecret db' sid
        let db'' := logActivityRow db' u.id "updated" "secret" sid
          (some ("Updated secret: " ++ secret.name)) now
        ⟨200, updated, db'', ssm'⟩

/-- `DELETE /api/secrets/:id`: look the secret up, check the admin-only
project permission, send `DeleteParameterCommand` (abort with 500 when it
fails, including `ParameterNotFound`), then delete the relational row and
log. -/
def handleDeleteSecret (u : User) (sid : Nat) (db : DB) (ssm : SSMStore)
    (avail : Bool) (now : Nat) : DeleteOutcome :=
  match getSecret db sid with
  | none => ⟨404, db, ssm⟩
  | some secret =>
    if !canAdminProject db u secret.projectId then ⟨403, db, ssm⟩
    else
      match ssmDelete avail ssm secret.ssmPath with
      | .error _ => ⟨500, db, ssm⟩
      | .ok ssm' =>
        let db' := deleteSecretRow db sid
        let db'' := logActivityRow db' u.id "deleted" "secret" sid
          (some ("Deleted secret: " ++ secret.name)) now
        ⟨200, db'', ssm'⟩

/-- The validated body of `POST /api/users` (`insertUserSchema`): the
`role` column has schema default `"user"`, so the field is optional. -/
structure InsertUserBody where
  username : String
  password : String
  email : String
  fullName : String
  role : Option String
deriving DecidableEq

/-- Outcome of the user creation route. -/
structure UserOutcome where
  status : Nat
  user : Option User
  db : DB
deriving DecidableEq

/-- `PgStorage.createUser`: insert with the next serial id, the schema
default filling an absent role. The insert throws on the `username` /
`email` unique constraints. -/
def createUserRow (db : DB) (b : InsertUserBody) : Except String (User × DB) :=
  if db.users.any (fun u => u.username == b.username || u.email == b.email) then
    .error "23505"
  else
    let row : User := ⟨db.nextUserId, b.username, b.password, b.email, b.fullName,
      b.role.getD "user"⟩
    .ok (row, { db with users := db.users ++ [row], nextUserId := db.nextUserId + 1 })

/-- `POST /api/users`: only `validateRequest(insertUserSchema)` guards the
route — no `isAuthenticated` / `isAdmin` middleware — so the handler never
inspects the session; any storage error is mapped to 500. -/
def handleCreateUsers (_session : Option User) (b : InsertUserBody) (db : DB) : UserOutcome :=
  match createUserRow db b with
  | .error _ => ⟨500, none, db⟩
  | .ok (user, db') => ⟨201, some user, db'⟩

/-- The body of `POST /api/user-projects` (`insertUserProjectSchema`). -/
structure InsertUserProjectBody where
  userId : Nat
  projectId : Nat
  role : String
deriving DecidableEq

/-- `PgStorage.assignUserToProject`: a plain insert with the next serial
id — no lookup of an existing row for the pair, and the schema declares no
unique constraint on (userId, projectId). -/
def pgAssignUserToProject (db : DB) (b : InsertUserProjectBody) : UserProject × DB :=
  let row : UserProject := ⟨db.nextUserProjectId, b.userId, b.projectId, b.role⟩
  (row, { db with userProjects := db.userProjects ++ [row],
                  nextUserProjectId := db.nextUserProjectId + 1 })

/-- `MemStorage.assignUserToProject`: when a row for the pair exists its
role is overwritten in place (`updateUserProjectRole`), otherwise a new
row is inserted. -/
def memAssignUserToProject (db : DB) (b : InsertUserProjectBody) : UserProject × DB :=
  match getUserProject db b.userId b.projectId with
  | some ex =>
    let updated : UserProject := { ex with role := b.role }
    (updated, { db with
      userProjects := db.userProjects.map fun r => if r.id == ex.id then updated else r })
  | none =>
    let row : UserProject := ⟨db.nextUserProjectId, b.userId, b.projectId, b.role⟩
    (row, { db with userProjects := db.userProjects ++ [row],
                    nextUserProjectId := db.nextUserProjectId + 1 })

/-- Insert a log entry into a list already sorted by descending timestamp. -/
def insertLogDesc (l : ActivityLog) : List ActivityLog → List ActivityLog
  | [] => [l]
  | x :: xs => if x.timestamp ≥ l.timestamp then x :: insertLogDesc l xs else l :: x :: xs

/-- Sort activity logs by descending timestamp (`orderBy desc(timestamp)`
in `PgStorage`, the `sort` comparator in `MemStorage`). -/
def sortLogsDesc : List ActivityLog → List ActivityLog
  | [] => []
  | x :: xs => insertLogDesc x (sortLogsDesc xs)

/-- `PgStorage.getProjectActivityLogs`: only rows with
`resourceType = "project"` and `resourceId = projectId`, newest first. -/
def pgGetProjectActivityLogs (db : DB) (projectId : Nat) : List ActivityLog :=
  sortLogsDesc (db.activityLogs.filter fun l =>
    l.resourceType == "project" && l.resourceId == projectId)

/-- `MemStorage.getProjectActivityLogs`: project rows for the id plus
secret rows whose `resourceId` is the id of a secret currently in the
project (computed by join against the secrets table), newest first. -/
def memGetProjectActivityLogs (db : DB) (projectId : Nat) : List ActivityLog :=
  sortLogsDesc (db.activityLogs.filter fun l =>
    (l.resourceType == "project" && l.resourceId == projectId) ||
    (l.resourceType == "secret" &&
      ((db.secrets.filter fun s => s.projectId == projectId).map fun s => s.id).contains
        l.resourceId))

/-! Example rows and stores used by the witness and counterexample
theorems. -/

/-- An empty relational store. -/
def emptyDB : DB := ⟨[], [], [], [], [], 1, 1, 1, 1, 1⟩

/-- An actor whose global role is `admin`. -/
def adminActor : User := ⟨1, "root", "pw", "root@example.com", "Root", "admin"⟩

/-- An actor whose global role is the default `user`. -/
def plainActor : User := ⟨2, "vera", "pw", "vera@example.com", "Vera", "user"⟩

/-- A store in which `plainActor` is a viewer of project 1 and has no row
for any other project. -/
def dbWithViewer : DB :=
  { emptyDB with userProjects := [⟨1, 2, 1, "viewer"⟩], nextUserProjectId := 2 }

/-- A secret of project 1 whose stored value is `"x"`. -/
def c4Secret : Secret := ⟨1, "s", "x", none, 1, "/secrets-manager/p/s", false⟩

/-- A store holding only `c4Secret`. -/
def c4DB : DB := { emptyDB with secrets := [c4Secret], nextSecretId := 2 }

/-- The parameter store backing `c4Secret`. -/
def c4SSM : SSMStore := [⟨"/secrets-manager/p/s", "x", false⟩]

/-- An update body supplying the empty string as the new value. -/
def c4BodyEmpty : UpdateSecretBody := ⟨none, some "", none, none, none, none⟩

/-- An update body supplying `"new"` as the new value. -/
def c4BodyNew : UpdateSecretBody := ⟨none, some "new", none, none, none, none⟩

/-- An update body that changes only the description. -/
def c4BodyDesc : UpdateSecretBody := ⟨none, none, some "d", none, none, none⟩

/-- A secret used by the delete witness. -/
def c5Secret : Secret := ⟨1, "s", "v", none, 1, "/secrets-manager/p/s", false⟩

/-- A store holding only `c5Secret`. -/
def c5DB : DB := { emptyDB with secrets := [c5Secret], nextSecretId := 2 }

/-- A store in which `plainActor` already has an editor row for
project 1. -/
def c6DB : DB :=
  { emptyDB with userProjects := [⟨1, 2, 1, "editor"⟩], nextUserProjectId := 2 }

/-- A secret of project 1. -/
def c7Secret : Secret := ⟨1, "s", "v", none, 1, "/secrets-manager/p/s", false⟩

/-- A log entry recording the creation of `c7Secret`. -/
def c7Log : ActivityLog := ⟨1, 1, "created", "secret", 1, none, 0⟩

/-- A store holding `c7Secret` and its creation log entry. -/
def c7DB : DB :=
  { emptyDB with secrets := [c7Secret], activityLogs := [c7Log],
                 nextSecretId := 2, nextActivityLogId := 2 }

/-- A store holding one project whose name contains a space and an upper
case letter. -/
def c8DB : DB := { emptyDB with projects := [⟨1, "My App", none⟩], nextProjectId := 2 }

/-- A create body targeting project 1. -/
def c8Body : CreateSecretBody := ⟨"API_KEY", "v1", none, 1, "ignored", some true⟩

/-- A user-creation body that supplies the global role `admin`. -/
def c9Body : InsertUserBody := ⟨"eve", "pw", "eve@example.com", "Eve", some "admin"⟩

/-- A secret of project 1 used by the cross-project update witness. -/
def c10Secret : Secret := ⟨1, "s", "v", none, 1, "/secrets-manager/p/s", false⟩

/-- A store in which `plainActor` is an editor of project 1, which holds
`c10Secret`; no project 42 exists and the actor has no row for it. -/
def c10DB : DB :=
  { emptyDB with secrets := [c10Secret], userProjects := [⟨1, 2, 1, "editor"⟩],
                 nextSecretId := 2, nextUserProjectId := 2 }

/-- An update body that only moves the secret to project 42. -/
def c10Body : UpdateSecretBody := ⟨none, none, none, some 42, none, none⟩

/-! Helper lemmas shared by the claim theorems. -/

theorem mem_insertLogDesc (a l : ActivityLog) (xs : List ActivityLog) :
    a ∈ insertLogDesc l xs ↔ a = l ∨ a ∈ xs := by
  induction xs with
  | nil => simp [insertLogDesc]
  | cons x xs ih =>
    unfold insertLogDesc
    by_cases h : x.timestamp ≥ l.timestamp
    · simp only [if_pos h, List.mem_cons, ih]
      tauto
    · simp only [if_neg h, List.mem_cons]

theorem mem_sortLogsDesc (a : ActivityLog) (xs : List ActivityLog) :
    a ∈ sortLogsDesc xs ↔ a ∈ xs := by
  induction xs with
  | nil => simp [sortLogsDesc]
  | cons x xs ih => simp [sortLogsDesc, mem_insertLogDesc, ih]

theorem mergeSecret_id (s : Secret) (b : UpdateSecretBody) :
    (mergeSecret s b).id = s.id := rfl

theorem find?_map_merge (l : List Secret) (sid : Nat) (b : UpdateSecretBody) :
    (l.map fun s => if s.id == sid then mergeSecret s b else s).find? (fun s => s.id == sid)
      = (l.find? fun s => s.id == sid).map fun s => mergeSecret s b := by
  induction l with
  | nil => rfl
  | cons x xs ih =>
    rw [List.map_cons]
    by_cases hx : x.id = sid
    · have hxif : (if x.id == sid then mergeSecret x b else x) = mergeSecret x b := by
        simp [hx]
      rw [hxif, List.find?_cons_of_pos _ (by simp [mergeSecret_id, hx]),
        List.find?_cons_of_pos _ (by simp [hx])]
      rfl
    · have hxif : (if x.id == sid then mergeSecret x b else x) = x := by
        simp [hx]
      rw [hxif, List.find?_cons_of_neg _ (by simp [hx]),
        List.find?_cons_of_neg _ (by simp [hx]), ih]

theorem getSecret_updateSecretRow (db : DB) (sid : Nat) (b : UpdateSecretBody) :
    getSecret (updateSecretRow db sid b) sid
      = (getSecret db sid).map fun s => mergeSecret s b := by
  unfold getSecret updateSecretRow
  exact find?_map_merge db.secrets sid b

theorem getSecret_logActivityRow (db : DB) (sid userId : Nat) (action resourceType : String)
    (resourceId : Nat) (details : Option String) (now : Nat) :
    getSecret (logActivityRow db userId action resourceType resourceId details now) sid
      = getSecret db sid := rfl

theorem find?_map_replace (l : List UserProject) (p : UserProject → Bool)
    (ex updated : UserProject) (hfind : l.find? p = some ex) (hup : p updated = true) :
    (l.map fun r => if r.id == ex.id then updated else r).find? p = some updated := by
  induction l with
  | nil => simp at hfind
  | cons x xs ih =>
    rw [List.map_cons]
    by_cases hid : x.id = ex.id
    · have hxif : (if x.id == ex.id then updated else x) = updated := by simp [hid]
      rw [hxif, List.find?_cons_of_pos _ hup]
    · have hxif : (if x.id == ex.id then updated else x) = x := by simp [hid]
      by_cases hx : p x = true
      · rw [List.find?_cons_of_pos _ hx] at hfind
        exact absurd (congrArg UserProject.id (Option.some.inj hfind)) hid
      · rw [List.find?_cons_of_neg _ hx] at hfind
        rw [hxif, List.find?_cons_of_neg _ hx, ih hfind]

/-! Claim theorems. -/

/-- Claim C1: for every actor whose global role is `admin`, `authorize`
allows every action on every project, in every store state — in
particular no `UserProject` row for the pair is required, since the store
is universally quantified (including stores with no membership rows at
all). -/
theorem c1_admin_bypasses_project_checks (db : DB) (u : User) (a : Action) (pid : Nat)
    (h : u.role = "admin") : authorize db u a pid = true := by
  cases a <;>
    simp [authorize, hasProjectAccess, canEditSecrets, canAdminProject, h]

/-- Witness for C1: the global admin may delete secrets of project 7 even
in the empty store, where no membership row exists. -/
theorem c1_witness : authorize emptyDB adminActor Action.deleteSecret 7 = true :=
  c1_admin_bypasses_project_checks emptyDB adminActor Action.deleteSecret 7 rfl

/-- Claim C2: for a non-admin actor, absence of a `UserProject` row for
the pair denies every project-scoped action; and a `viewer` row allows
viewing project secrets but denies creating, updating and deleting
secrets. -/
theorem c2_non_admin_membership_rules (db : DB) (u : User) (pid : Nat)
    (h : u.role ≠ "admin") :
    (getUserProject db u.id pid = none → ∀ a, authorize db u a pid = false) ∧
    (∀ up, getUserProject db u.id pid = some up → up.role = "viewer" →
      authorize db u Action.viewProjectSecrets pid = true ∧
      authorize db u Action.createSecret pid = false ∧
      authorize db u Action.updateSecret pid = false ∧
      authorize db u Action.deleteSecret pid = false) := by
  constructor
  · intro hnone a
    cases a <;>
      simp [authorize, hasProjectAccess, canEditSecrets, canAdminProject, hnone, h]
  · intro up hup hrole
    refine ⟨?_, ?_, ?_, ?_⟩ <;>
      simp [authorize, hasProjectAccess, canEditSecrets, canAdminProject, hup, hrole, h]

/-- Witness for C2: the plain actor is denied everything on project 9
(no row), and as viewer of project 1 may view its secrets but not create
secrets there. -/
theorem c2_witness :
    (∀ a, authorize dbWithViewer plainActor a 9 = false) ∧
    authorize dbWithViewer plainActor Action.viewProjectSecrets 1 = true ∧
    authorize dbWithViewer plainActor Action.createSecret 1 = false := by
  have h := c2_non_admin_membership_rules dbWithViewer plainActor 9 (by decide)
  have h1 := c2_non_admin_membership_rules dbWithViewer plainActor 1 (by decide)
  have h2 := h1.2 ⟨1, 2, 1, "viewer"⟩ (by decide) rfl
  exact ⟨h.1 (by decide), h2.1, h2.2.1⟩

theorem lookupParam_setParam (ssm : SSMStore) (path value : String) (secure : Bool) :
    lookupParam (setParam ssm path value secure) path = some ⟨path, value, secure⟩ := by
  unfold lookupParam setParam
  rw [List.find?_cons_of_pos _ (by simp)]

/-- Claim C3: when the Credential Store put fails during create, the
handler aborts with no relational change at all: no secret row, no
activity-log entry, and no response payload. -/
theorem c3_create_aborts_on_ssm_failure (u : User) (b : CreateSecretBody) (db : DB)
    (ssm : SSMStore) (now : Nat) :
    (handleCreateSecret u b db ssm false now).db = db ∧
    (handleCreateSecret u b db ssm false now).secret = none ∧
    (handleCreateSecret u b db ssm false now).ssm = ssm := by
  unfold handleCreateSecret
  split
  · exact ⟨rfl, rfl, rfl⟩
  · split
    · exact ⟨rfl, rfl, rfl⟩
    · simp [ssmPut]

/-- Claim C5: deleting an existing secret sends the Credential Store
delete first; when that delete fails — because the service call fails or
because the parameter is not found — the relational row survives
untouched, and when it succeeds the relational row is removed. -/
theorem c5_delete_ssm_first (u : User) (sid : Nat) (db : DB) (ssm : SSMStore)
    (now : Nat) (s : Secret)
    (hs : getSecret db sid = some s)
    (hperm : canAdminProject db u s.projectId = true) :
    handleDeleteSecret u sid db ssm false now = ⟨500, db, ssm⟩ ∧
    (lookupParam ssm s.ssmPath = none →
      ∀ avail, handleDeleteSecret u sid db ssm avail now = ⟨500, db, ssm⟩) ∧
    (∀ p, lookupParam ssm s.ssmPath = some p →
      (handleDeleteSecret u sid db ssm true now).status = 200 ∧
      (handleDeleteSecret u sid db ssm true now).db.secrets
        = db.secrets.filter (fun r => !(r.id == sid)) ∧
      (handleDeleteSecret u sid db ssm true now).ssm = removeParam ssm s.ssmPath) := by
  refine ⟨?_, ?_, ?_⟩
  · unfold handleDeleteSecret
    rw [hs]
    simp [hperm, ssmDelete]
  · intro hnone avail
    unfold handleDeleteSecret
    rw [hs]
    cases avail <;> simp [hperm, ssmDelete, hnone]
  · intro p hp
    unfold handleDeleteSecret
    rw [hs]
    simp [hperm, ssmDelete, hp, logActivityRow, deleteSecretRow]

/-- Witness for C5: with the secret present but its parameter absent from
the store, the delete aborts and the row survives; no concrete success
case is needed because every hypothesis is discharged here. -/
theorem c5_witness :
    handleDeleteSecret adminActor 1 c5DB [] false 0 = ⟨500, c5DB, []⟩ ∧
    handleDeleteSecret adminActor 1 c5DB [] true 0 = ⟨500, c5DB, []⟩ := by
  have h := c5_delete_ssm_first adminActor 1 c5DB [] 0 c5Secret rfl rfl
  exact ⟨h.1, h.2.1 rfl true⟩

/-- Claim C8: a successful create stores a row whose `ssmPath` is the
namespace, the slug of the project name (lower-cased, spaces to hyphens)
and the untransformed secret name, and the Credential Store holds exactly
the row's value at that path. -/
theorem c8_create_path_roundtrip (u : User) (b : CreateSecretBody) (db : DB)
    (ssm : SSMStore) (now : Nat) (proj : Project)
    (hperm : canEditSecrets db u b.projectId = true)
    (hproj : getProject db b.projectId = some proj) :
    (handleCreateSecret u b db ssm true now).status = 201 ∧
    ∃ s, (handleCreateSecret u b db ssm true now).secret = some s ∧
      s.ssmPath = "/secrets-manager/" ++ formatProjectName proj.name ++ "/" ++ b.name ∧
      s.name = b.name ∧
      s.value = b.value ∧
      s ∈ (handleCreateSecret u b db ssm true now).db.secrets ∧
      lookupParam (handleCreateSecret u b db ssm true now).ssm s.ssmPath
        = some ⟨s.ssmPath, s.value, b.isEncrypted.getD false⟩ := by
  unfold handleCreateSecret
  rw [hproj]
  simp only [hperm, Bool.not_true, Bool.false_eq_true, if_false, ssmPut, if_pos rfl,
    createSecretRow, logActivityRow]
  refine ⟨rfl, ⟨db.nextSecretId, b.name, b.value, b.description, b.projectId,
    ssmPathFor proj.name b.name, b.isEncrypted.getD false⟩, rfl, rfl, rfl, rfl, ?_, ?_⟩
  · simp
  · exact lookupParam_setParam ssm (ssmPathFor proj.name b.name) b.value (b.isEncrypted.getD false)

/-- Witness for C8: creating `API_KEY` with value `v1` in the project
named `My App` stores the path `/secrets-manager/my-app/API_KEY`. -/
theorem c8_witness :
    (handleCreateSecret adminActor c8Body c8DB [] true 0).status = 201 ∧
    ∃ s, (handleCreateSecret adminActor c8Body c8DB [] true 0).secret = some s ∧
      s.ssmPath = "/secrets-manager/my-app/API_KEY" ∧
      s.name = "API_KEY" ∧
      s.value = "v1" ∧
      lookupParam (handleCreateSecret adminActor c8Body c8DB [] true 0).ssm s.ssmPath
        = some ⟨s.ssmPath, s.value, true⟩ := by
  obtain ⟨h1, s, h2, h3, h4, h5, _h6, h7⟩ :=
    c8_create_path_roundtrip adminActor c8Body c8DB [] 0 ⟨1, "My App", none⟩ rfl rfl
  refine ⟨h1, s, h2, ?_, h4, h5, h7⟩
  rw [h3]
  decide

/-- Counterexample to C4 as stated: the update request supplies the empty
string, which differs from the stored value `"x"`, yet the Credential
Store is not called (the JS guard `req.body.value && …` is falsy on the
empty string) while the relational row is still updated to the empty
value. -/
theorem c4_counterexample :
    ("" : String) ≠ c4Secret.value ∧
    (handleUpdateSecret adminActor 1 c4BodyEmpty c4DB c4SSM true 0).ssm = c4SSM ∧
    lookupParam (handleUpdateSecret adminActor 1 c4BodyEmpty c4DB c4SSM true 0).ssm
      c4Secret.ssmPath = some ⟨"/secrets-manager/p/s", "x", false⟩ ∧
    (handleUpdateSecret adminActor 1 c4BodyEmpty c4DB c4SSM true 0).status = 200 ∧
    getSecret (handleUpdateSecret adminActor 1 c4BodyEmpty c4DB c4SSM true 0).db 1
      = some ⟨1, "s", "", none, 1, "/secrets-manager/p/s", false⟩ := by
  decide

/-- Claim C4 (amended): when the supplied value is non-empty and differs
from the stored one, the Credential Store is written at the existing
`ssmPath` (encryption flag taken from the request body) before the row is
updated, and a Credential Store failure leaves the row unchanged; when
the value is absent, unchanged, or empty, the Credential Store is not
touched for any availability and only the relational row is updated. -/
theorem c4_update_write_through (u : User) (sid : Nat) (b : UpdateSecretBody) (db : DB)
    (ssm : SSMStore) (now : Nat) (s : Secret)
    (hs : getSecret db sid = some s)
    (hperm : canEditSecrets db u s.projectId = true) :
    (∀ v, b.value = some v → v ≠ "" → v ≠ s.value →
      handleUpdateSecret u sid b db ssm false now = ⟨500, none, db, ssm⟩ ∧
      (handleUpdateSecret u sid b db ssm true now).ssm
        = setParam ssm s.ssmPath v (b.isEncrypted.getD false) ∧
      (handleUpdateSecret u sid b db ssm true now).status = 200 ∧
      getSecret (handleUpdateSecret u sid b db ssm true now).db sid
        = some (mergeSecret s b)) ∧
    ((b.value = none ∨ b.value = some s.value ∨ b.value = some "") →
      ∀ avail,
        (handleUpdateSecret u sid b db ssm avail now).ssm = ssm ∧
        (handleUpdateSecret u sid b db ssm avail now).status = 200 ∧
        getSecret (handleUpdateSecret u sid b db ssm avail now).db sid
          = some (mergeSecret s b)) := by
  constructor
  · intro v hv hne hnev
    have hcheck : valueChangedCheck b s = true := by
      unfold valueChangedCheck
      rw [hv]
      simp [hne, hnev]
    refine ⟨?_, ?_, ?_, ?_⟩ <;>
      · unfold handleUpdateSecret
        rw [hs]
        simp [hperm, hcheck, ssmPut, hv, getSecret_logActivityRow,
          getSecret_updateSecretRow, hs]
  · intro hcase avail
    have hcheck : valueChangedCheck b s = false := by
      unfold valueChangedCheck
      rcases hcase with h | h | h <;> rw [h] <;> simp
    refine ⟨?_, ?_, ?_⟩ <;>
      · unfold handleUpdateSecret
        rw [hs]
        simp [hperm, hcheck, getSecret_logActivityRow, getSecret_updateSecretRow, hs]

/-- Witness for C4 (amended): on the concrete store, a failed Credential
Store write aborts the update with the row intact; a successful one lands
the new value at the stored path; and a description-only update leaves
the Credential Store untouched. -/
theorem c4_witness :
    handleUpdateSecret adminActor 1 c4BodyNew c4DB c4SSM false 0 = ⟨500, none, c4DB, c4SSM⟩ ∧
    (handleUpdateSecret adminActor 1 c4BodyNew c4DB c4SSM true 0).ssm
      = setParam c4SSM "/secrets-manager/p/s" "new" false ∧
    (handleUpdateSecret adminActor 1 c4BodyDesc c4DB c4SSM true 0).ssm = c4SSM := by
  have h1 := c4_update_write_through adminActor 1 c4BodyNew c4DB c4SSM 0 c4Secret rfl rfl
  have h2 := c4_update_write_through adminActor 1 c4BodyDesc c4DB c4SSM 0 c4Secret rfl rfl
  obtain ⟨ha, hb, _hc, _hd⟩ := h1.1 "new" rfl (by decide) (by decide)
  exact ⟨ha, hb, (h2.2 (Or.inl rfl) true).1⟩

/-- Counterexample to C6 as stated: in the storage implementation the
application uses (`PgStorage`), assigning a role for a pair that already
has a row inserts a second row instead of overwriting, so the pair
(user 2, project 1) ends up with two rows. -/
theorem c6_counterexample :
    ((pgAssignUserToProject c6DB ⟨2, 1, "admin"⟩).2).userProjects.filter
      (fun r => r.userId == 2 && r.projectId == 1) =
      [⟨1, 2, 1, "editor"⟩, ⟨2, 2, 1, "admin"⟩] := by
  decide

/-- Claim C6 (amended): the overwrite behaviour holds only for the
in-memory storage: `MemStorage.assignUserToProject` keeps the row count
and rewrites the existing row's role in place, while the `PgStorage`
implementation the application uses unconditionally appends a fresh row,
so a (user, project) pair can acquire several rows. -/
theorem c6_assign_overwrite_semantics (db : DB) (b : InsertUserProjectBody) :
    ((pgAssignUserToProject db b).2).userProjects
      = db.userProjects ++ [⟨db.nextUserProjectId, b.userId, b.projectId, b.role⟩] ∧
    (∀ ex, getUserProject db b.userId b.projectId = some ex →
      ((memAssignUserToProject db b).2).userProjects.length = db.userProjects.length ∧
      getUserProject (memAssignUserToProject db b).2 b.userId b.projectId
        = some { ex with role := b.role }) ∧
    (getUserProject db b.userId b.projectId = none →
      ((memAssignUserToProject db b).2).userProjects
        = db.userProjects ++ [⟨db.nextUserProjectId, b.userId, b.projectId, b.role⟩]) := by
  refine ⟨rfl, ?_, ?_⟩
  · intro ex hex
    unfold memAssignUserToProject
    rw [hex]
    constructor
    · simp
    · have hpex := List.find?_some hex
      exact find?_map_replace db.userProjects _ ex { ex with role := b.role } hex hpex
  · intro hnone
    unfold memAssignUserToProject
    rw [hnone]

/-- Witness for C6 (amended): overwriting the editor row of (user 2,
project 1) with role `admin` through the in-memory implementation keeps a
single row and updates its role. -/
theorem c6_witness :
    ((memAssignUserToProject c6DB ⟨2, 1, "admin"⟩).2).userProjects.length
      = c6DB.userProjects.length ∧
    getUserProject (memAssignUserToProject c6DB ⟨2, 1, "admin"⟩).2 2 1
      = some ⟨1, 2, 1, "admin"⟩ :=
  (c6_assign_overwrite_semantics c6DB ⟨2, 1, "admin"⟩).2.1 ⟨1, 2, 1, "editor"⟩ rfl

/-- Counterexample to C7 as stated: `c7Log` records the creation of
secret 1, which currently belongs to project 1, yet the retrieval the
application uses (`PgStorage.getProjectActivityLogs`) returns no entry at
all for project 1 — secret-typed entries are never joined in. -/
theorem c7_counterexample :
    c7Log ∈ c7DB.activityLogs ∧
    c7Log.resourceType = "secret" ∧
    c7Secret ∈ c7DB.secrets ∧
    c7Secret.projectId = 1 ∧
    c7Log.resourceId = c7Secret.id ∧
    pgGetProjectActivityLogs c7DB 1 = [] := by
  decide

/-- Claim C7 (amended): the described join semantics is implemented only
by the in-memory storage: an entry is returned by
`MemStorage.getProjectActivityLogs` exactly when it is a project entry
for the id or a secret entry whose resource is a secret currently in the
project, while `PgStorage.getProjectActivityLogs` — the implementation
the application uses — returns exactly the project-typed entries for the
id and never any secret entry. -/
theorem c7_project_logs_membership (db : DB) (pid : Nat) (l : ActivityLog) :
    (l ∈ pgGetProjectActivityLogs db pid ↔
      l ∈ db.activityLogs ∧ l.resourceType = "project" ∧ l.resourceId = pid) ∧
    (l ∈ memGetProjectActivityLogs db pid ↔
      l ∈ db.activityLogs ∧
        ((l.resourceType = "project" ∧ l.resourceId = pid) ∨
         (l.resourceType = "secret" ∧
           ∃ s, s ∈ db.secrets ∧ s.projectId = pid ∧ l.resourceId = s.id))) := by
  constructor
  · unfold pgGetProjectActivityLogs
    rw [mem_sortLogsDesc]
    simp [List.mem_filter, and_assoc]
  · unfold memGetProjectActivityLogs
    rw [mem_sortLogsDesc]
    simp only [List.mem_filter, Bool.or_eq_true, Bool.and_eq_true, beq_iff_eq,
      List.contains_iff_exists_mem_beq, List.mem_map, List.mem_filter]
    constructor
    · rintro ⟨hmem, h | ⟨htype, n, ⟨s, ⟨hsmem, hsp⟩, hsn⟩, hbeq⟩⟩
      · exact ⟨hmem, Or.inl h⟩
      · refine ⟨hmem, Or.inr ⟨htype, s, hsmem, by simpa using hsp, ?_⟩⟩
        have : l.resourceId = n := by simpa using hbeq
        rw [this, ← hsn]
    · rintro ⟨hmem, h | ⟨htype, s, hsmem, hsp, hsid⟩⟩
      · exact ⟨hmem, Or.inl h⟩
      · exact ⟨hmem, Or.inr ⟨htype, s.id, ⟨s, ⟨hsmem, by simpa using hsp⟩, rfl⟩,
          by simpa using hsid⟩⟩

/-- Claim C9: the user-creation route has no session or authorization
guard — its outcome is identical for every session, including none — and
on a fresh username/email it creates a user carrying exactly the supplied
fields, including any supplied global role. -/
theorem c9_create_user_ignores_session (sess sess' : Option User) (b : InsertUserBody)
    (db : DB) :
    handleCreateUsers sess b db = handleCreateUsers sess' b db ∧
    (db.users.any (fun u => u.username == b.username || u.email == b.email) = false →
      (handleCreateUsers sess b db).status = 201 ∧
      (handleCreateUsers sess b db).user
        = some ⟨db.nextUserId, b.username, b.password, b.email, b.fullName,
            b.role.getD "user"⟩ ∧
      (handleCreateUsers sess b db).db.users
        = db.users ++ [⟨db.nextUserId, b.username, b.password, b.email, b.fullName,
            b.role.getD "user"⟩]) := by
  constructor
  · rfl
  · intro hfresh
    unfold handleCreateUsers createUserRow
    simp [hfresh]

/-- Witness for C9: with no session at all, posting a body whose role is
`admin` to the empty store succeeds and creates a global admin. -/
theorem c9_witness :
    (handleCreateUsers none c9Body emptyDB).status = 201 ∧
    (handleCreateUsers none c9Body emptyDB).user
      = some ⟨1, "eve", "pw", "eve@example.com", "Eve", "admin"⟩ := by
  have h := (c9_create_user_ignores_session none (some adminActor) c9Body emptyDB).2 rfl
  exact ⟨h.1, h.2.1⟩

/-- Claim C10: the update route checks permission against the secret's
current project only; an editor of that project may set `projectId` to
any target `q` — the store carries no constraint whatsoever about the
actor and `q` — and the merged row lands in `q` (with `ssmPath` likewise
taken from the body when supplied). -/
theorem c10_update_moves_project_without_target_check (u : User) (sid : Nat)
    (b : UpdateSecretBody) (db : DB) (ssm : SSMStore) (avail : Bool) (now : Nat)
    (s : Secret) (up : UserProject) (q : Nat)
    (hs : getSecret db sid = some s)
    (hrole : u.role ≠ "admin")
    (hup : getUserProject db u.id s.projectId = some up)
    (hedit : up.role = "editor")
    (hval : b.value = none)
    (hq : b.projectId = some q) :
    (handleUpdateSecret u sid b db ssm avail now).status = 200 ∧
    getSecret (handleUpdateSecret u sid b db ssm avail now).db sid
      = some (mergeSecret s b) ∧
    (mergeSecret s b).projectId = q ∧
    (∀ sp, b.ssmPath = some sp → (mergeSecret s b).ssmPath = sp) := by
  have hperm : canEditSecrets db u s.projectId = true := by
    unfold canEditSecrets
    rw [hup]
    simp [hrole, hedit]
  have hcheck : valueChangedCheck b s = false := by
    unfold valueChangedCheck
    rw [hval]
  refine ⟨?_, ?_, ?_, ?_⟩
  · unfold handleUpdateSecret
    rw [hs]
    simp [hperm, hcheck]
  · unfold handleUpdateSecret
    rw [hs]
    simp [hperm, hcheck, getSecret_logActivityRow, getSecret_updateSecretRow, hs]
  · unfold mergeSecret
    simp [hq]
  · intro sp hsp
    unfold mergeSecret
    simp [hsp]

/-- Witness for C10: `plainActor`, an editor of project 1 only, moves
secret 1 into project 42 — a project that does not even exist in the
store and for which the actor has no role row. -/
theorem c10_witness :
    (handleUpdateSecret plainActor 1 c10Body c10DB [] true 0).status = 200 ∧
    getSecret (handleUpdateSecret plainActor 1 c10Body c10DB [] true 0).db 1
      = some ⟨1, "s", "v", none, 42, "/secrets-manager/p/s", false⟩ := by
  have h := c10_update_moves_project_without_target_check plainActor 1 c10Body c10DB
    [] true 0 c10Secret ⟨1, 2, 1, "editor"⟩ 42 rfl (by decide) rfl rfl rfl rfl
  exact ⟨h.1, h.2.1⟩

end SecretManager
